import Mathlib

/-!
Verification of the `indaleko_dbfacade` repository: a shallow embedding of
the configuration manager (`config.py`), the registry client
(`registry/client.py`), the field encryptor (`encryption/field_encryptor.py`),
the obfuscated-model mapping layer (`models/obfuscated_model.py`), the HTTP
API handlers (`service/api.py`, with `resolve_uuid_fields` from
`db_facade_service.py`), and the blanket-exception lint tool
(`scripts/hooks/check_blanket_exception.py`).

Python dictionaries are modelled as association lists whose lookup finds the
first matching key; Python `None`-able values as `Option`; raised exceptions
as `Except` errors.  Randomness (uuid4, os.urandom) and wall-clock time are
passed in explicitly as parameters, and third-party primitives (AES-GCM,
base64, JSON serialization) are abstract function parameters, so that every
definition is executable.
-/

namespace DbFacade

/-- JSON-like runtime values, as produced by `model_dump()` / stored in the
database.  `vDatetime` models a Python `datetime` object (which `hasattr
'isoformat'`), carrying the string its `isoformat()` call returns. -/
inductive Val where
  | vNull : Val
  | vBool : Bool → Val
  | vInt : Int → Val
  | vStr : String → Val
  | vList : List Val → Val
  | vDict : List (String × Val) → Val
  | vDatetime : String → Val
deriving Repr

/-- First-match association-list lookup: the observable behaviour of a
Python `dict` access `d[k]` / `d.get(k)` for the dictionaries we build. -/
def dictGet (kvs : List (String × Val)) (k : String) : Option Val :=
  (kvs.find? (fun kv => kv.1 == k)).map (fun kv => kv.2)

/-! ## HTTP API layer (`service/api.py`)

The FastAPI handlers are embedded as pure functions of
* the global configuration's mode (`DBFacadeConfig.is_dev_mode()`, a `Bool`),
* the caller-supplied `dev_mode` parameter,
* the outcome of the database call (`Except` carrying `str(e)` on failure),
* a resolution function `resolve` standing for
  `registry.get_label_for_uuid(uuid.UUID(k))` wrapped in its
  `try/except (ValueError, KeyError)` (`none` = that pair of exceptions).
-/

/-- An HTTP outcome: a successful JSON body or an `HTTPException`. -/
inductive ApiResult (α : Type) where
  | ok : α → ApiResult α
  | httpError : Nat → String → ApiResult α
deriving Repr

/-- Handler `GET /record/{record_uuid}` (`api.py` lines 156-214).  `g` is the global
`is_dev_mode()`, `p` the caller's `dev_mode` query parameter (`none` when
omitted, FastAPI default `Query(None)`), `dbResult` the outcome of
`db.get(collection, record_uuid)` with the record as an association list. -/
def getRecord (g : Bool) (p : Option Bool) (resolve : String → Option String)
    (dbResult : Except String (List (String × Val))) :
    ApiResult (List (String × Val)) :=
  match dbResult with
  | .error e =>
      if g then ApiResult.httpError 500 e
      else ApiResult.httpError 404 "Record not found"
  | .ok record =>
      let devMode := p.getD g
      if devMode then
        ApiResult.ok (record.map (fun kv =>
          match resolve kv.1 with
          | some fieldName => (fieldName, kv.2)
          | none => (kv.1, kv.2)))
      else
        ApiResult.ok record

/-- Handler `POST /record` (`api.py` lines 72-103), error path only: the handler has
no caller-supplied dev-mode parameter; `dbResult` is the outcome of
`db.insert`.  On success the response echoes the collection with a fresh
record uuid and a timestamp, passed in here explicitly. -/
def submitRecord (g : Bool) (recordUuid collection storedAt : String)
    (dbResult : Except String Unit) : ApiResult (String × String × String) :=
  match dbResult with
  | .error e =>
      if g then ApiResult.httpError 500 e
      else ApiResult.httpError 500 "Failed to submit record"
  | .ok _ => ApiResult.ok (recordUuid, collection, storedAt)

/-- Helper `resolve_uuid_fields` (`db_facade_service.py` lines 281-303): map each
key of `data` to its semantic name via the registry, silently skipping keys
that fail to parse as a UUID or are unknown (`except (ValueError, KeyError)`:
modelled by `resolve` returning `none`). -/
def resolveUuidFields (resolve : String → Option String)
    (data : List (String × Val)) : List (String × String) :=
  data.filterMap (fun kv => (resolve kv.1).map (fun fieldName => (kv.1, fieldName)))

/-- The body of `POST /query`'s response (`QueryResult` in `api.py`). -/
structure QueryResult where
  results : List (List (String × Val))
  resolvedFields : Option (List (String × String))
deriving Repr

/-- Pydantic validation of `QueryPayload.dev_mode : Optional[bool] = False`:
`field` is `none` when the JSON omits the key (the default `False` applies),
`some none` for an explicit JSON `null`, `some (some b)` for an explicit
boolean. -/
def mkDevMode (field : Option (Option Bool)) : Option Bool :=
  field.getD (some false)

/-- Handler `POST /query` (`api.py` lines 106-153).  `g` is the global
`is_dev_mode()`, `field` the raw `dev_mode` payload field (see `mkDevMode`),
`dbResult` the outcome of `db.query`, and `resolve` the registry resolution
used by `resolve_uuid_fields`. -/
def runQuery (g : Bool) (field : Option (Option Bool))
    (resolve : String → Option String)
    (dbResult : Except String (List (List (String × Val)))) :
    ApiResult QueryResult :=
  match dbResult with
  | .error e =>
      if g then ApiResult.httpError 500 e
      else ApiResult.httpError 500 "Failed to run query"
  | .ok results =>
      let devMode := match mkDevMode field with
        | some b => b
        | none => g
      let resolvedFields :=
        if devMode then
          match results with
          | [] => none
          | firstResult :: _ => some (resolveUuidFields resolve firstResult)
        else none
      ApiResult.ok { results := results, resolvedFields := resolvedFields }

/-! ## Configuration manager (`config.py`)

The configuration dictionary is modelled as an association list with
first-match lookup; `dict.update` / item assignment are modelled by
prepending, which is observationally equivalent under that lookup.  A YAML
scalar/section is a `CVal`.  The environment is a function
`String → Option String` (`os.environ.get`). -/

/-- A YAML/config value: scalar or nested section. -/
inductive CVal where
  | str : String → CVal
  | bool : Bool → CVal
  | nat : Nat → CVal
  | dict : List (String × CVal) → CVal
deriving Repr

/-- A configuration dictionary (top level or a nested section). -/
abbrev ConfigDict := List (String × CVal)

/-- First-match lookup, the observable behaviour of `dict` access. -/
def lookupKey (m : ConfigDict) (k : String) : Option CVal :=
  (m.find? (fun kv => kv.1 == k)).map (fun kv => kv.2)

/-- Item assignment `m[k] = v`, up to `lookupKey`-observation. -/
def setKey (m : ConfigDict) (k : String) (v : CVal) : ConfigDict :=
  (k, v) :: m

/-- Merge `base.update(upd)` (shallow top-level merge), up to
`lookupKey`-observation: keys of `upd` win. -/
def dictUpdate (base upd : ConfigDict) : ConfigDict :=
  upd ++ base

/-- Assignment `m[k1][k2] = v` for a nested section (the sections touched always exist
after `initialize` copies the defaults; on a non-dict the source would raise,
modelled as a no-op because no embedded path reaches it). -/
def setNested (m : ConfigDict) (k1 k2 : String) (v : CVal) : ConfigDict :=
  match lookupKey m k1 with
  | some (CVal.dict d) => setKey m k1 (CVal.dict (setKey d k2 v))
  | _ => m

/-- Defaults `DBFacadeConfig._default_config` (`config.py` lines 27-44). -/
def defaultConfig : ConfigDict :=
  [ ("mode", CVal.str "DEV"),
    ("encryption", CVal.dict
      [ ("enabled", CVal.bool false),
        ("algorithm", CVal.str "AES-GCM"),
        ("key_derivation", CVal.str "PBKDF2") ]),
    ("registry", CVal.dict
      [ ("url", CVal.str "http://localhost:8000"),
        ("cache_ttl", CVal.nat 3600) ]),
    ("database", CVal.dict
      [ ("url", CVal.str "http://localhost:8529"),
        ("database", CVal.str "dbfacade"),
        ("username", CVal.str "root"),
        ("password", CVal.str "") ]) ]

/-- The `INDALEKO_MODE` override step of `_load_from_env` (`config.py`
lines 100-103): accepted values `DEV`/`PROD` only, anything else ignored. -/
def envModeStep (env : String → Option String) (c : ConfigDict) : ConfigDict :=
  match env "INDALEKO_MODE" with
  | some m => if m = "DEV" ∨ m = "PROD" then setKey c "mode" (CVal.str m) else c
  | none => c

/-- The `INDALEKO_ENCRYPTION_ENABLED` override step of `_load_from_env`
(`config.py` lines 106-110). -/
def envEncryptionStep (env : String → Option String) (c : ConfigDict) : ConfigDict :=
  match env "INDALEKO_ENCRYPTION_ENABLED" with
  | some e =>
      if e = "1" ∨ e = "true" ∨ e = "True" ∨ e = "yes" ∨ e = "Yes" then
        setNested c "encryption" "enabled" (CVal.bool true)
      else if e = "0" ∨ e = "false" ∨ e = "False" ∨ e = "no" ∨ e = "No" then
        setNested c "encryption" "enabled" (CVal.bool false)
      else c
  | none => c

/-- One plain-truthiness override step of `_load_from_env` (`config.py`
lines 113-130): `if env_value:` — a missing or empty string is falsy in
Python and skips the override. -/
def envTruthyStep (env : String → Option String) (k sec sub : String)
    (c : ConfigDict) : ConfigDict :=
  match env k with
  | some u => if u = "" then c else setNested c sec sub (CVal.str u)
  | none => c

/-- Override pass `DBFacadeConfig._load_from_env` (`config.py` lines 97-130). -/
def loadFromEnv (env : String → Option String) (c : ConfigDict) : ConfigDict :=
  envTruthyStep env "INDALEKO_REGISTRY_URL" "registry" "url"
    (envTruthyStep env "INDALEKO_DB_PASSWORD" "database" "password"
      (envTruthyStep env "INDALEKO_DB_USERNAME" "database" "username"
        (envTruthyStep env "INDALEKO_DB_URL" "database" "url"
          (envEncryptionStep env (envModeStep env c)))))

/-- Initialization `DBFacadeConfig.initialize` (`config.py` lines 52-71): defaults, then
the parsed YAML file's top-level keys (shallow merge) when a path was given,
then environment overrides.  `file` is the parsed YAML mapping (`none` when
no `config_path` was supplied; a missing file aborts the process before this
point). -/
def initConfig (env : String → Option String) (file : Option ConfigDict) :
    ConfigDict :=
  let c := defaultConfig
  let c := match file with
    | some f => dictUpdate c f
    | none => c
  loadFromEnv env c

/-- Accessor `DBFacadeConfig.get("mode")`, the value `is_dev_mode()` compares. -/
def getMode (c : ConfigDict) : Option CVal :=
  lookupKey c "mode"

/-! ## Blanket-exception checker (`scripts/hooks/check_blanket_exception.py`)

A Python module is modelled, for this tool, by the list of its
`ast.ExceptHandler` nodes in visit order (`ast.NodeVisitor.generic_visit`
reaches every handler of a syntactically valid file).  A handler's `type`
expression is `none` for a bare `except:`, or a `PyExpr`. -/

/-- The exception-type expression of an `except` clause: a plain name, a
tuple of expressions, or any other expression (e.g. an attribute access),
which the checker ignores. -/
inductive PyExpr where
  | name : String → PyExpr
  | tup : List PyExpr → PyExpr
  | otherExpr : PyExpr
deriving Repr

/-- An `ast.ExceptHandler` node: source line and optional type expression. -/
structure ExceptHandler where
  lineno : Nat
  typeExpr : Option PyExpr
deriving Repr

/-- The `ast.Name` elements of a tuple's `elts`
(`check_blanket_exception.py` lines 39-42). -/
def tupleNames (elts : List PyExpr) : List String :=
  elts.filterMap (fun e =>
    match e with
    | PyExpr.name i => some i
    | _ => none)

/-- Classifier `BlanketExceptionVisitor.visit_ExceptHandler`
(`check_blanket_exception.py` lines 22-53): the diagnostic produced for one
handler, if any. -/
def visitHandler (h : ExceptHandler) : Option (Nat × String) :=
  match h.typeExpr with
  | none =>
      some (h.lineno, "Bare except clause found. Use specific exceptions instead.")
  | some (PyExpr.name i) =>
      if i = "Exception" then
        some (h.lineno,
          "Blanket 'except Exception:' found. Use specific exceptions instead.")
      else none
  | some (PyExpr.tup elts) =>
      let exceptionNames := tupleNames elts
      if exceptionNames.contains "Exception" ∨ exceptionNames.contains "BaseException" then
        some (h.lineno,
          "Exception tuple contains too-generic exceptions: "
            ++ String.intercalate ", " exceptionNames)
      else none
  | some PyExpr.otherExpr => none

/-- A file as the checker sees it: its path and, when it parses, the
`ExceptHandler` nodes of its syntax tree. -/
structure PyFile where
  filename : String
  handlers : List ExceptHandler
deriving Repr

/-- Scanner `check_file` (`check_blanket_exception.py` lines 62-73) on a
syntactically valid file: the diagnostics of all its handlers. -/
def checkFile (f : PyFile) : List (Nat × String) :=
  f.handlers.filterMap visitHandler

/-- Python's `str.endswith`, written over the character list so that it
evaluates by `decide` on concrete inputs. -/
def pyEndsWith (s suffixStr : String) : Bool :=
  suffixStr.data.isSuffixOf s.data

/-- Entry point `main` (`check_blanket_exception.py` lines 76-92): process the argument
files, skipping those not ending in `.py`; the exit status becomes 1 as soon
as any diagnostic is printed. -/
def mainExit (files : List PyFile) : Nat :=
  files.foldl
    (fun exitCode f =>
      if ¬ pyEndsWith f.filename ".py" then exitCode
      else if checkFile f ≠ [] then 1 else exitCode)
    0

/-! ## Registry client (`registry/client.py`)

UUIDs are represented by their canonical string form (`str(uuid)` /
`UUID(s)` are inverse on canonical forms, so key-ing the uuid cache by the
string is observationally the same as key-ing it by the `UUID` object).
`uuid4()` draws from an injective stream `fresh` at index `nFresh`, and
`time.time()` is passed in as the argument `now` of each operation.  The
backing ArangoDB collection is the list `store` (the AQL `FILTER ... LIMIT 1`
pattern is `List.find?`), and the claims are stated under the hypothesis
that the store is reachable, so the fail-stop `sys.exit(1)` branches are
unreachable and the operations are total. -/

/-- A document of the `dbfacade_registry` collection:
`{_key: str(uuid), label, uuid: str(uuid), created_at}` (the `_key` equals
the `uuid` field and is not duplicated here). -/
structure RegDoc where
  label : String
  uuid : String
  createdAt : Nat
deriving Repr, DecidableEq

/-- The state of a `RegistryClient` plus its backing store: the registry
collection, the two caches (`_label_to_uuid_cache`, `_uuid_to_label_cache`,
each entry carrying its insertion timestamp), the cache TTL, and the uuid4
supply. -/
structure RegState where
  store : List RegDoc
  labelCache : String → Option (String × Nat)
  uuidCache : String → Option (String × Nat)
  cacheTtl : Nat
  fresh : Nat → String
  nFresh : Nat

/-- The cache-freshness test shared by both lookup operations
(`client.py` lines 67-71 and 127-131): a hit is served only when
`now - timestamp < cache_ttl`. -/
def regCacheFresh (entry : Option (String × Nat)) (now ttl : Nat) :
    Option String :=
  match entry with
  | some (v, ts) => if now - ts < ttl then some v else none
  | none => none

/-- Lookup `get_uuid_for_label` (`client.py` lines 51-112): serve a fresh cache
entry; otherwise query the store by label; mint and persist a new mapping
when the label is unknown; refresh both cache directions. -/
def getUuidForLabel (s : RegState) (label : String) (now : Nat) :
    String × RegState :=
  match regCacheFresh (s.labelCache label) now s.cacheTtl with
  | some u => (u, s)
  | none =>
    match s.store.find? (fun d => d.label == label) with
    | some doc =>
        (doc.uuid,
         { s with
             labelCache := fun l =>
               if l = label then some (doc.uuid, now) else s.labelCache l,
             uuidCache := fun u =>
               if u = doc.uuid then some (label, now) else s.uuidCache u })
    | none =>
        let u := s.fresh s.nFresh
        (u,
         { s with
             store := s.store ++ [⟨label, u, now⟩],
             nFresh := s.nFresh + 1,
             labelCache := fun l =>
               if l = label then some (u, now) else s.labelCache l,
             uuidCache := fun u2 =>
               if u2 = u then some (label, now) else s.uuidCache u2 })

/-- Lookup `get_label_for_uuid` (`client.py` lines 114-166): serve a fresh cache
entry; otherwise query the store by uuid; on a hit refresh both caches; on a
miss raise a `KeyError` (modelled as `Except.error`), leaving the state
untouched. -/
def getLabelForUuid (s : RegState) (u : String) (now : Nat) :
    Except String String × RegState :=
  match regCacheFresh (s.uuidCache u) now s.cacheTtl with
  | some l => (Except.ok l, s)
  | none =>
    match s.store.find? (fun d => d.uuid == u) with
    | some doc =>
        (Except.ok doc.label,
         { s with
             labelCache := fun l =>
               if l = doc.label then some (u, now) else s.labelCache l,
             uuidCache := fun u2 =>
               if u2 = u then some (doc.label, now) else s.uuidCache u2 })
    | none =>
        (Except.error ("UUID " ++ u ++ " not found in registry"), s)

/-- The document `⟨l, u, _⟩` is stored: label `l` maps to identifier `u`. -/
def MapsTo (s : RegState) (l u : String) : Prop :=
  ∃ d ∈ s.store, d.label = l ∧ d.uuid = u

/-- Well-formedness of a registry state: the store is functional in both
directions (the bijection invariant), the caches only repeat the store, and
the uuid4 stream is injective and yields identifiers unused so far (a
uuid4 collision has negligible probability; the source relies on this). -/
structure RegWF (s : RegState) : Prop where
  labelFun : ∀ d₁ ∈ s.store, ∀ d₂ ∈ s.store, d₁.label = d₂.label → d₁ = d₂
  uuidFun : ∀ d₁ ∈ s.store, ∀ d₂ ∈ s.store, d₁.uuid = d₂.uuid → d₁ = d₂
  labelCacheSound : ∀ l u ts, s.labelCache l = some (u, ts) → MapsTo s l u
  uuidCacheSound : ∀ u l ts, s.uuidCache u = some (l, ts) → MapsTo s l u
  freshInj : ∀ i j, s.fresh i = s.fresh j → i = j
  freshNew : ∀ i, s.nFresh ≤ i → ∀ d ∈ s.store, d.uuid ≠ s.fresh i

/-! ## Encryption subsystem (`encryption/field_encryptor.py`)

Bytes are `List Nat`.  The third-party primitives — PBKDF2 key derivation
(with the master key and SHA-256 mixing folded in, since the claims fix one
master key), the AES-GCM cipher, base64, and JSON serialization — are the
fields of `EncPrims`; the repository's own logic (envelope construction,
metadata round-trip, ciphertext‖tag splitting) is embedded on top of them.
Randomness (`os.urandom` salts and nonces) and the timestamp are explicit
arguments. -/

/-- Enum `EncryptionAlgorithm` (`field_encryptor.py` lines 29-33). -/
inductive EncryptionAlgorithm where
  | aesGcm : EncryptionAlgorithm
  | chaCha20Poly1305 : EncryptionAlgorithm
deriving Repr, DecidableEq

/-- The `.value` of each enum member. -/
def EncryptionAlgorithm.value : EncryptionAlgorithm → String
  | EncryptionAlgorithm.aesGcm => "AES-GCM"
  | EncryptionAlgorithm.chaCha20Poly1305 => "ChaCha20-Poly1305"

/-- The `EncryptionAlgorithm(string)` constructor used by
`EncryptionMetadata.from_dict`; an unknown string raises `ValueError`
(`none`). -/
def parseAlgorithm (s : String) : Option EncryptionAlgorithm :=
  if s = "AES-GCM" then some EncryptionAlgorithm.aesGcm
  else if s = "ChaCha20-Poly1305" then some EncryptionAlgorithm.chaCha20Poly1305
  else none

/-- The library primitives a `FieldEncryptor` with a fixed master key uses:
`deriveKey f salt` is `derive_key` (deterministic, lines 150-186);
`aesGcmEnc key iv plaintext` returns `(ciphertext, tag)`; `aesGcmDec key iv
tag ciphertext` returns the plaintext or `none` on authentication failure;
base64 and JSON round the values through bytes. -/
structure EncPrims where
  deriveKey : String → List Nat → List Nat
  aesGcmEnc : List Nat → List Nat → List Nat → List Nat × List Nat
  aesGcmDec : List Nat → List Nat → List Nat → List Nat → Option (List Nat)
  b64encode : List Nat → String
  b64decode : String → List Nat
  jsonDumps : Val → List Nat
  jsonLoads : List Nat → Option Val

/-- Serializer `EncryptionMetadata.to_dict` (`field_encryptor.py` lines 60-73). -/
def metadataToDict (alg : EncryptionAlgorithm) (ivB64 saltB64 createdAt : String) :
    Val :=
  Val.vDict
    [ ("algorithm", Val.vStr alg.value),
      ("iv", Val.vStr ivB64),
      ("salt", Val.vStr saltB64),
      ("created_at", Val.vStr createdAt),
      ("version", Val.vStr "1.0") ]

/-- The AES-GCM branch of `encrypt_field` (`field_encryptor.py` lines
188-248): serialize to JSON, derive the key from the field uuid and the
fresh salt, encrypt with the fresh 12-byte nonce, concatenate
ciphertext‖tag, base64 it, and wrap it with the metadata. -/
def encryptFieldAES (P : EncPrims) (value : Val) (fieldUuid : String)
    (salt iv : List Nat) (createdAt : String) : Val :=
  let valueBytes := P.jsonDumps value
  let key := P.deriveKey fieldUuid salt
  let ciphertext := (P.aesGcmEnc key iv valueBytes).1
  let tag := (P.aesGcmEnc key iv valueBytes).2
  let encryptedData := ciphertext ++ tag
  Val.vDict
    [ ("value", Val.vStr (P.b64encode encryptedData)),
      ("metadata",
        metadataToDict EncryptionAlgorithm.aesGcm
          (P.b64encode iv) (P.b64encode salt) createdAt) ]

/-- Operation `encrypt_field` with an explicit algorithm: the non-AES-GCM branch
raises "Unsupported encryption algorithm" (lines 232-234). -/
def encryptField (P : EncPrims) (value : Val) (fieldUuid : String)
    (alg : EncryptionAlgorithm) (salt iv : List Nat) (createdAt : String) :
    Except String Val :=
  match alg with
  | EncryptionAlgorithm.aesGcm =>
      Except.ok (encryptFieldAES P value fieldUuid salt iv createdAt)
  | EncryptionAlgorithm.chaCha20Poly1305 =>
      Except.error ("Unsupported encryption algorithm: " ++ alg.value)

/-- String-valued dictionary access, for the metadata fields
(`EncryptionMetadata.from_dict`); a missing key raises `KeyError` and a
non-string value fails in the decoder, both collapsed to `none`. -/
def dictGetStr (kvs : List (String × Val)) (k : String) : Option String :=
  match dictGet kvs k with
  | some (Val.vStr s) => some s
  | _ => none

/-- Operation `decrypt_field` (`field_encryptor.py` lines 250-301): require `value`
and `metadata`, parse the metadata, base64-decode, re-derive the key from
the stored salt, split the trailing 16 bytes as the tag (Python's
`[:-16]`/`[-16:]`), decrypt-and-verify, and JSON-deserialize. -/
def decryptField (P : EncPrims) (encryptedData : Val) (fieldUuid : String) :
    Except String Val :=
  match encryptedData with
  | Val.vDict kvs =>
    match dictGet kvs "value", dictGet kvs "metadata" with
    | some (Val.vStr valueB64), some (Val.vDict md) =>
      match dictGetStr md "algorithm", dictGetStr md "iv",
            dictGetStr md "salt", dictGetStr md "created_at" with
      | some algStr, some ivB64, some saltB64, some _ =>
        match parseAlgorithm algStr with
        | none =>
            Except.error ("not a valid EncryptionAlgorithm: " ++ algStr)
        | some EncryptionAlgorithm.chaCha20Poly1305 =>
            Except.error ("Unsupported encryption algorithm: " ++ algStr)
        | some EncryptionAlgorithm.aesGcm =>
          let encryptedValue := P.b64decode valueB64
          let iv := P.b64decode ivB64
          let salt := P.b64decode saltB64
          let key := P.deriveKey fieldUuid salt
          let ciphertext := encryptedValue.take (encryptedValue.length - 16)
          let tag := encryptedValue.drop (encryptedValue.length - 16)
          match P.aesGcmDec key iv tag ciphertext with
          | none => Except.error "decryption failed"
          | some plainBytes =>
            match P.jsonLoads plainBytes with
            | some v => Except.ok v
            | none => Except.error "invalid JSON payload"
      | _, _, _, _ => Except.error "invalid metadata"
    | _, _ => Except.error "Invalid encrypted data format"
  | _ => Except.error "Invalid encrypted data format"

/-- A degenerate but law-abiding set of primitives (identity cipher with an
all-zero 16-byte tag, characterwise base64, constant JSON pinned to one
value): used to show the round-trip theorem's hypotheses are satisfiable at
concrete inputs. -/
def idPrims (v : Val) : EncPrims where
  deriveKey := fun _ _ => []
  aesGcmEnc := fun _ _ plaintext => (plaintext, List.replicate 16 0)
  aesGcmDec := fun _ _ _ ciphertext => some ciphertext
  b64encode := fun bs => String.mk (bs.map Char.ofNat)
  b64decode := fun s => s.data.map Char.toNat
  jsonDumps := fun _ => []
  jsonLoads := fun _ => some v

/-! ## Obfuscated model layer (`models/obfuscated_model.py`)

`_map_to_uuids` is embedded over: the registry lookup
`registry.get_uuid_for_label(key)` as a function `lookup` returning the
uuid string (`none` models the exception the `try/except` catches), the
per-field descriptors `obfuscated_fields` as an association list of
obfuscation levels, the global flags `is_encryption_enabled()` /
`is_dev_mode()`, and the per-call randomness of `encrypt_field` (keyed by
the field's uuid, which is unique per call within one dictionary).  The
encryptor's default algorithm is the configuration default AES-GCM.  A
model's `get_obfuscated_data()` is `_map_to_uuids` applied to its
`model_dump()` dictionary. -/

/-- Enum `ObfuscationLevel` (`obfuscated_model.py` lines 19-29). -/
inductive ObfuscationLevel where
  | uuidOnly : ObfuscationLevel
  | encrypted : ObfuscationLevel
  | levelNone : ObfuscationLevel
deriving Repr, DecidableEq

/-- The `.value` of each enum member. -/
def ObfuscationLevel.value : ObfuscationLevel → String
  | ObfuscationLevel.uuidOnly => "uuid_only"
  | ObfuscationLevel.encrypted => "encrypted"
  | ObfuscationLevel.levelNone => "none"

/-- Python's `str.startswith`, over the character list so that it evaluates
on concrete inputs. -/
def pyStartsWith (s preStr : String) : Bool :=
  preStr.data.isPrefixOf s.data

/-- Descriptor lookup `obfuscated_fields[key].obfuscation_level`. -/
def levelOf (obfFields : List (String × ObfuscationLevel)) (k : String) :
    Option ObfuscationLevel :=
  (obfFields.find? (fun kv => kv.1 == k)).map (fun kv => kv.2)

/-- Test `key in obfuscated_fields and
obfuscated_fields[key].obfuscation_level.value == "encrypted"`
(`obfuscated_model.py` lines 208-213, the descriptor part). -/
def levelIsEncrypted (obfFields : List (String × ObfuscationLevel))
    (k : String) : Bool :=
  match levelOf obfFields k with
  | some lv => lv.value == "encrypted"
  | none => false

/-- Conversion `if hasattr(value, 'isoformat'): value = value.isoformat()` — datetime
objects become their ISO string; everything else is untouched. -/
def serializeDatetime : Val → Val
  | Val.vDatetime s => Val.vStr s
  | v => v

/-- The fresh randomness `encrypt_field` consumes on each call, keyed by
the field uuid it is invoked with (each key occurs once per dictionary). -/
structure EncSupply where
  salt : String → List Nat
  iv : String → List Nat
  createdAt : String → String

/-- Mapping `_map_to_uuids` (`obfuscated_model.py` lines 163-237): private keys pass
through; each other key is resolved to its uuid string and its value is
encrypted exactly when encryption is enabled and the field's descriptor says
`encrypted`; a failed resolution keeps the semantic key in dev mode and
re-raises in production. -/
def mapToUuids (P : EncPrims) (sup : EncSupply)
    (encryptionEnabled devMode : Bool) (lookup : String → Option String)
    (obfFields : List (String × ObfuscationLevel)) :
    List (String × Val) → Except Unit (List (String × Val))
  | [] => Except.ok []
  | (k, v) :: rest =>
    if pyStartsWith k "_" then
      (mapToUuids P sup encryptionEnabled devMode lookup obfFields rest).map
        (fun out => (k, v) :: out)
    else
      match lookup k with
      | some uuidKey =>
        let shouldEncrypt := encryptionEnabled && levelIsEncrypted obfFields k
        let v2 := serializeDatetime v
        let outVal :=
          if shouldEncrypt then
            encryptFieldAES P v2 uuidKey (sup.salt uuidKey) (sup.iv uuidKey)
              (sup.createdAt uuidKey)
          else v2
        (mapToUuids P sup encryptionEnabled devMode lookup obfFields rest).map
          (fun out => (uuidKey, outVal) :: out)
      | none =>
        if devMode then
          (mapToUuids P sup encryptionEnabled devMode lookup obfFields rest).map
            (fun out => (k, serializeDatetime v) :: out)
        else Except.error ()

/-- Operation `get_obfuscated_data` (`obfuscated_model.py` lines 309-323):
`_map_to_uuids` applied to the model's dumped dictionary. -/
def getObfuscatedData (P : EncPrims) (sup : EncSupply)
    (encryptionEnabled devMode : Bool) (lookup : String → Option String)
    (obfFields : List (String × ObfuscationLevel))
    (dump : List (String × Val)) : Except Unit (List (String × Val)) :=
  mapToUuids P sup encryptionEnabled devMode lookup obfFields dump

/-- The image of one dictionary entry under `_map_to_uuids`, used to state
its characterization. -/
def entryImage (P : EncPrims) (sup : EncSupply) (encryptionEnabled : Bool)
    (lookup : String → Option String)
    (obfFields : List (String × ObfuscationLevel)) (kv : String × Val) :
    String × Val :=
  if pyStartsWith kv.1 "_" then kv
  else
    match lookup kv.1 with
    | some uuidKey =>
        (uuidKey,
         if encryptionEnabled && levelIsEncrypted obfFields kv.1 then
           encryptFieldAES P (serializeDatetime kv.2) uuidKey
             (sup.salt uuidKey) (sup.iv uuidKey) (sup.createdAt uuidKey)
         else serializeDatetime kv.2)
    | none => (kv.1, serializeDatetime kv.2)

end DbFacade

namespace DbFacade

theorem mainExit_foldl_eq (files : List PyFile) (acc : Nat) :
    files.foldl
      (fun exitCode f =>
        if ¬ pyEndsWith f.filename ".py" then exitCode
        else if checkFile f ≠ [] then 1 else exitCode)
      acc =
    if ∃ f ∈ files, pyEndsWith f.filename ".py" = true ∧ checkFile f ≠ [] then 1
    else acc := by
  induction files generalizing acc with
  | nil => simp
  | cons g rest ih =>
    simp only [List.foldl_cons]
    by_cases hpy : pyEndsWith g.filename ".py" = true
    · rw [if_neg (not_not_intro hpy)]
      by_cases hd : checkFile g ≠ []
      · rw [if_pos hd, ih 1,
          if_pos (show ∃ f ∈ g :: rest, pyEndsWith f.filename ".py" = true ∧ checkFile f ≠ []
            from ⟨g, List.mem_cons_self g rest, hpy, hd⟩)]
        split <;> rfl
      · rw [if_neg hd, ih acc]
        refine if_congr ?_ rfl rfl
        constructor
        · rintro ⟨f, hf, h1, h2⟩
          exact ⟨f, List.mem_cons_of_mem g hf, h1, h2⟩
        · rintro ⟨f, hf, h1, h2⟩
          rcases List.mem_cons.mp hf with rfl | hf2
          · exact absurd h2 hd
          · exact ⟨f, hf2, h1, h2⟩
    · rw [if_pos hpy, ih acc]
      refine if_congr ?_ rfl rfl
      constructor
      · rintro ⟨f, hf, h1, h2⟩
        exact ⟨f, List.mem_cons_of_mem g hf, h1, h2⟩
      · rintro ⟨f, hf, h1, h2⟩
        rcases List.mem_cons.mp hf with rfl | hf2
        · exact absurd h1 hpy
        · exact ⟨f, hf2, h1, h2⟩

/-- C9: for syntactically valid files, the blanket-exception checker flags a
bare `except:`, flags `except Exception:`, flags a tuple clause any of whose
named members is `Exception` (reporting the collected names), does not flag
a single named narrower type, and the process exit status is nonzero iff at
least one diagnostic was produced across all (`.py`) files. -/
theorem blanket_exception_checker_behaviour :
    (∀ h : ExceptHandler, h.typeExpr = none →
      visitHandler h = some (h.lineno,
        "Bare except clause found. Use specific exceptions instead.")) ∧
    (∀ h : ExceptHandler, h.typeExpr = some (PyExpr.name "Exception") →
      visitHandler h = some (h.lineno,
        "Blanket 'except Exception:' found. Use specific exceptions instead.")) ∧
    (∀ (h : ExceptHandler) (elts : List PyExpr),
      h.typeExpr = some (PyExpr.tup elts) →
      "Exception" ∈ tupleNames elts →
      visitHandler h = some (h.lineno,
        "Exception tuple contains too-generic exceptions: "
          ++ String.intercalate ", " (tupleNames elts))) ∧
    (∀ (h : ExceptHandler) (i : String), i ≠ "Exception" →
      h.typeExpr = some (PyExpr.name i) → visitHandler h = none) ∧
    (∀ files : List PyFile,
      mainExit files ≠ 0 ↔
        ∃ f ∈ files, pyEndsWith f.filename ".py" = true ∧ checkFile f ≠ []) := by
  refine ⟨?_, ?_, ?_, ?_, ?_⟩
  · intro h ht; simp [visitHandler, ht]
  · intro h ht; simp [visitHandler, ht]
  · intro h elts ht hc
    simp [visitHandler, ht, hc]
  · intro h i hi ht; simp [visitHandler, ht, hi]
  · intro files
    rw [show mainExit files = _ from mainExit_foldl_eq files 0]
    constructor
    · intro hne
      by_contra hno
      rw [if_neg hno] at hne
      exact hne rfl
    · intro hex
      rw [if_pos hex]
      exact one_ne_zero

/-- Witness for C9: concrete handlers — a bare clause is flagged, `except
ValueError:` is not, and a one-file invocation with one finding exits
nonzero. -/
theorem blanket_exception_checker_behaviour_witness :
    visitHandler { lineno := 3, typeExpr := none }
      = some (3, "Bare except clause found. Use specific exceptions instead.") ∧
    visitHandler { lineno := 7, typeExpr := some (PyExpr.name "ValueError") } = none ∧
    mainExit [{ filename := "a.py", handlers := [{ lineno := 3, typeExpr := none }] }] ≠ 0 :=
  ⟨blanket_exception_checker_behaviour.1 _ rfl,
   blanket_exception_checker_behaviour.2.2.2.1 _ "ValueError" (by decide) rfl,
   (blanket_exception_checker_behaviour.2.2.2.2 _).mpr
     ⟨_, List.mem_singleton.mpr rfl, by decide,
      by simp [checkFile, visitHandler]⟩⟩

theorem lookupKey_setKey_self (m : ConfigDict) (k : String) (v : CVal) :
    lookupKey (setKey m k v) k = some v := by
  simp [lookupKey, setKey, List.find?]

theorem lookupKey_setKey_ne (m : ConfigDict) (k k' : String) (v : CVal)
    (h : k' ≠ k) : lookupKey (setKey m k v) k' = lookupKey m k' := by
  have hb : (k == k') = false := beq_eq_false_iff_ne.mpr (Ne.symm h)
  simp [lookupKey, setKey, List.find?, hb]

theorem lookupKey_setNested_ne (m : ConfigDict) (k k1 k2 : String) (v : CVal)
    (h : k ≠ k1) : lookupKey (setNested m k1 k2 v) k = lookupKey m k := by
  unfold setNested
  cases hl : lookupKey m k1 with
  | none => rfl
  | some c =>
    cases c with
    | dict d => exact lookupKey_setKey_ne m k1 k (CVal.dict (setKey d k2 v)) h
    | str s => rfl
    | bool b => rfl
    | nat n => rfl

theorem getMode_envTruthyStep (env : String → Option String)
    (k sec sub : String) (c : ConfigDict) (h : sec ≠ "mode") :
    getMode (envTruthyStep env k sec sub c) = getMode c := by
  unfold envTruthyStep getMode
  cases env k with
  | none => rfl
  | some u =>
    by_cases hu : u = ""
    · simp [hu]
    · simp only [hu, if_neg, ite_false]
      exact lookupKey_setNested_ne c "mode" sec sub (CVal.str u) (Ne.symm h)

theorem getMode_envEncryptionStep (env : String → Option String)
    (c : ConfigDict) :
    getMode (envEncryptionStep env c) = getMode c := by
  cases he : env "INDALEKO_ENCRYPTION_ENABLED" with
  | none => simp [envEncryptionStep, he, getMode]
  | some e =>
    by_cases h1 : e = "1" ∨ e = "true" ∨ e = "True" ∨ e = "yes" ∨ e = "Yes"
    · simp only [envEncryptionStep, he, if_pos h1, getMode]
      exact lookupKey_setNested_ne c "mode" "encryption" "enabled"
        (CVal.bool true) (by decide)
    · by_cases h2 : e = "0" ∨ e = "false" ∨ e = "False" ∨ e = "no" ∨ e = "No"
      · simp only [envEncryptionStep, he, if_neg h1, if_pos h2, getMode]
        exact lookupKey_setNested_ne c "mode" "encryption" "enabled"
          (CVal.bool false) (by decide)
      · simp only [envEncryptionStep, he, if_neg h1, if_neg h2]

theorem getMode_loadFromEnv (env : String → Option String) (c : ConfigDict) :
    getMode (loadFromEnv env c) = getMode (envModeStep env c) := by
  unfold loadFromEnv
  rw [getMode_envTruthyStep _ _ _ _ _ (by decide),
      getMode_envTruthyStep _ _ _ _ _ (by decide),
      getMode_envTruthyStep _ _ _ _ _ (by decide),
      getMode_envTruthyStep _ _ _ _ _ (by decide),
      getMode_envEncryptionStep]

theorem getMode_envModeStep_of_mode (env : String → Option String)
    (c : ConfigDict) (m : String) (he : env "INDALEKO_MODE" = some m)
    (hm : m = "DEV" ∨ m = "PROD") :
    getMode (envModeStep env c) = some (CVal.str m) := by
  unfold envModeStep
  rw [he]
  simp only [hm, if_pos]
  exact lookupKey_setKey_self c "mode" (CVal.str m)

theorem getMode_envModeStep_of_no_mode (env : String → Option String)
    (c : ConfigDict)
    (h : ∀ m, env "INDALEKO_MODE" = some m → m ≠ "DEV" ∧ m ≠ "PROD") :
    getMode (envModeStep env c) = getMode c := by
  unfold envModeStep
  cases he : env "INDALEKO_MODE" with
  | none => rfl
  | some m =>
    have := h m he
    simp [this.1, this.2]

/-- C7: after `initialize`, `INDALEKO_MODE` equal to `"DEV"` or `"PROD"`
overrides whatever the file says; any other value of `INDALEKO_MODE` is
ignored and the file's `mode` (if the file sets one) applies; and when
neither the file nor a recognized environment override sets the mode, the
built-in default `"DEV"` applies. -/
theorem mode_precedence (env : String → Option String) (file : Option ConfigDict) :
    (∀ m, env "INDALEKO_MODE" = some m → (m = "DEV" ∨ m = "PROD") →
      getMode (initConfig env file) = some (CVal.str m)) ∧
    ((∀ m, env "INDALEKO_MODE" = some m → m ≠ "DEV" ∧ m ≠ "PROD") →
      ∀ f, file = some f →
        getMode (initConfig env file) = some ((lookupKey f "mode").getD (CVal.str "DEV"))) ∧
    ((∀ m, env "INDALEKO_MODE" = some m → m ≠ "DEV" ∧ m ≠ "PROD") →
      file = none →
        getMode (initConfig env file) = some (CVal.str "DEV")) := by
  refine ⟨?_, ?_, ?_⟩
  · intro m he hm
    unfold initConfig
    rw [getMode_loadFromEnv]
    exact getMode_envModeStep_of_mode env _ m he hm
  · intro hno f hf
    subst hf
    unfold initConfig
    rw [getMode_loadFromEnv, getMode_envModeStep_of_no_mode env _ hno]
    simp only [getMode, lookupKey, dictUpdate, List.find?_append]
    cases hfind : f.find? (fun kv => kv.1 == "mode") with
    | none =>
      simp [lookupKey, hfind, defaultConfig, List.find?]
    | some kv =>
      simp [lookupKey, hfind]
  · intro hno hf
    subst hf
    unfold initConfig
    rw [getMode_loadFromEnv, getMode_envModeStep_of_no_mode env _ hno]
    simp [getMode, lookupKey, defaultConfig, List.find?]

/-- Witness for C7: with `INDALEKO_MODE=PROD` in the environment and a file
saying `mode: DEV`, the effective mode is `PROD`. -/
theorem mode_precedence_witness
    : getMode (initConfig
        (fun k => if k = "INDALEKO_MODE" then some "PROD" else none)
        (some [("mode", CVal.str "DEV")])) = some (CVal.str "PROD") :=
  (mode_precedence (fun k => if k = "INDALEKO_MODE" then some "PROD" else none)
      (some [("mode", CVal.str "DEV")])).1 "PROD" rfl (Or.inr rfl)

/-- C5: for both endpoints that accept a caller-supplied `dev_mode`
(`GET /record/{record_uuid}` and `POST /query`), when the database call fails
with the same underlying error under the same global mode, the error
response is identical for any two values of the caller-supplied `dev_mode`:
the detail level is decided solely by the global configuration. -/
theorem error_detail_independent_of_caller_dev_mode
    (g : Bool) (p₁ p₂ : Option Bool) (f₁ f₂ : Option (Option Bool))
    (resolve : String → Option String) (e : String) :
    getRecord g p₁ resolve (Except.error e) = getRecord g p₂ resolve (Except.error e) ∧
    runQuery g f₁ resolve (Except.error e) = runQuery g f₂ resolve (Except.error e) :=
  ⟨rfl, rfl⟩

/-- C6 counterexample: in development mode a failing point lookup returns an
HTTP 500 carrying the underlying error message, not an HTTP 404 with detail
"Record not found" as the claim states. -/
theorem dev_mode_lookup_failure_is_500
    : getRecord true none (fun _ => none) (Except.error "boom")
        = ApiResult.httpError 500 "boom" ∧
      getRecord true none (fun _ => none) (Except.error "boom")
        ≠ ApiResult.httpError 404 "Record not found" := by
  refine ⟨rfl, fun h => ?_⟩
  have h500 : (500 : Nat) = 404 := by injection h
  exact absurd h500 (by decide)

/-- C6 amended: a failing point lookup returns HTTP 404 with the fixed
detail "Record not found" in production mode; in development mode it instead
returns HTTP 500 whose detail is the underlying failure's message. -/
theorem lookup_failure_status_by_mode
    (g : Bool) (p : Option Bool) (resolve : String → Option String) (e : String) :
    getRecord g p resolve (Except.error e)
      = (if g then ApiResult.httpError 500 e
         else ApiResult.httpError 404 "Record not found") := by
  cases g <;> rfl

/-- C10 counterexample: a query request whose `dev_mode` field is an explicit
JSON `null` validates to `None`, so the fallback to the globally configured
mode *is* taken: with the global mode DEV and a non-empty result list,
`resolved_fields` is present even though the request never set `dev_mode`
to true; with the global mode PROD the same request gets no
`resolved_fields`. -/
theorem null_dev_mode_takes_config_fallback
    : runQuery true (some none) (fun _ => some "username")
          (Except.ok [[("u", Val.vInt 1)]])
        = ApiResult.ok { results := [[("u", Val.vInt 1)]],
                         resolvedFields := some [("u", "username")] } ∧
      runQuery false (some none) (fun _ => some "username")
          (Except.ok [[("u", Val.vInt 1)]])
        = ApiResult.ok { results := [[("u", Val.vInt 1)]],
                         resolvedFields := none } :=
  ⟨rfl, rfl⟩

/-- C10 amended: `dev_mode` defaults to `False` when omitted, so a request
that omits it never gets `resolved_fields`, even when the global mode is
DEV; the config fallback is taken exactly when the request carries an
explicit `null`.  `resolved_fields` is present iff the effective dev-mode is
true (the request set `dev_mode` to true, or set it to `null` with the
global mode DEV) and the result list is non-empty, and it is then computed
from the keys of the first result row only. -/
theorem resolved_fields_characterization
    (g : Bool) (field : Option (Option Bool)) (resolve : String → Option String)
    (results : List (List (String × Val))) :
    (runQuery g none resolve (Except.ok results)
        = ApiResult.ok { results := results, resolvedFields := none }) ∧
    (∀ fs, runQuery g field resolve (Except.ok results)
        = ApiResult.ok { results := results, resolvedFields := some fs } →
      (field = some (some true) ∨ (field = some none ∧ g = true)) ∧
      ∃ firstRow rest, results = firstRow :: rest ∧
        fs = resolveUuidFields resolve firstRow) ∧
    (∀ firstRow rest, results = firstRow :: rest → field = some (some true) →
      runQuery g field resolve (Except.ok results)
        = ApiResult.ok { results := results,
                         resolvedFields := some (resolveUuidFields resolve firstRow) }) := by
  refine ⟨by simp [runQuery, mkDevMode], ?_, ?_⟩
  · intro fs h
    match hf : field with
    | none => simp [runQuery, mkDevMode] at h
    | some none =>
      cases g with
      | false => simp [runQuery, mkDevMode] at h
      | true =>
        cases results with
        | nil => simp [runQuery, mkDevMode] at h
        | cons firstRow rest =>
          simp only [runQuery, mkDevMode, Option.getD] at h
          refine ⟨Or.inr ⟨rfl, rfl⟩, firstRow, rest, rfl, ?_⟩
          have := congrArg (fun r => match r with
            | ApiResult.ok q => q.resolvedFields
            | ApiResult.httpError _ _ => none) h
          simpa using this.symm
    | some (some b) =>
      cases b with
      | false => simp [runQuery, mkDevMode] at h
      | true =>
        cases results with
        | nil => simp [runQuery, mkDevMode] at h
        | cons firstRow rest =>
          simp only [runQuery, mkDevMode, Option.getD] at h
          refine ⟨Or.inl rfl, firstRow, rest, rfl, ?_⟩
          have := congrArg (fun r => match r with
            | ApiResult.ok q => q.resolvedFields
            | ApiResult.httpError _ _ => none) h
          simpa using this.symm
  · intro firstRow rest hres hf
    subst hres hf
    simp [runQuery, mkDevMode]

/-- Witness for the amended C10 theorem: at a concrete request with
`dev_mode = true` and one result row, `resolved_fields` is computed from
the first row's keys. -/
theorem resolved_fields_characterization_witness
    : runQuery false (some (some true)) (fun k => if k = "u" then some "username" else none)
        (Except.ok [[("u", Val.vInt 1)]])
      = ApiResult.ok { results := [[("u", Val.vInt 1)]],
                       resolvedFields := some (resolveUuidFields
                         (fun k => if k = "u" then some "username" else none)
                         [("u", Val.vInt 1)]) } :=
  (resolved_fields_characterization false (some (some true))
      (fun k => if k = "u" then some "username" else none)
      [[("u", Val.vInt 1)]]).2.2 [("u", Val.vInt 1)] [] rfl rfl

end DbFacade

namespace DbFacade

theorem MapsTo_unique_uuid {s : RegState} (hWF : RegWF s) {l u u' : String}
    (h : MapsTo s l u) (h' : MapsTo s l u') : u = u' := by
  rcases h with ⟨d, hd, hdl, hdu⟩
  rcases h' with ⟨d', hd', hdl', hdu'⟩
  have : d = d' := hWF.labelFun d hd d' hd' (hdl.trans hdl'.symm)
  rw [← hdu, ← hdu', this]

theorem MapsTo_unique_label {s : RegState} (hWF : RegWF s) {l l' u : String}
    (h : MapsTo s l u) (h' : MapsTo s l' u) : l = l' := by
  rcases h with ⟨d, hd, hdl, hdu⟩
  rcases h' with ⟨d', hd', hdl', hdu'⟩
  have : d = d' := hWF.uuidFun d hd d' hd' (hdu.trans hdu'.symm)
  rw [← hdl, ← hdl', this]

theorem MapsTo_of_store_mem {s s' : RegState} {l u : String}
    (hsub : ∀ d ∈ s.store, d ∈ s'.store) (h : MapsTo s l u) : MapsTo s' l u := by
  rcases h with ⟨d, hd, hdl, hdu⟩
  exact ⟨d, hsub d hd, hdl, hdu⟩

theorem regCacheFresh_some {entry : Option (String × Nat)} {now ttl : Nat}
    {v : String} (h : regCacheFresh entry now ttl = some v) :
    ∃ ts, entry = some (v, ts) := by
  rcases entry with _ | ⟨w, ts⟩
  · exact absurd h (by simp [regCacheFresh])
  · refine ⟨ts, ?_⟩
    by_cases hf : now - ts < ttl
    · simp only [regCacheFresh, if_pos hf] at h
      rw [← Option.some_inj.mp h]
    · simp [regCacheFresh, if_neg hf] at h

end DbFacade

namespace DbFacade

theorem getUuidForLabel_sound (s : RegState) (label : String) (now : Nat)
    (hWF : RegWF s) :
    MapsTo (getUuidForLabel s label now).2 label (getUuidForLabel s label now).1 ∧
    RegWF (getUuidForLabel s label now).2 ∧
    (∀ d ∈ s.store, d ∈ (getUuidForLabel s label now).2.store) := by
  unfold getUuidForLabel
  cases hcf : regCacheFresh (s.labelCache label) now s.cacheTtl with
  | some u =>
    obtain ⟨ts, hts⟩ := regCacheFresh_some hcf
    exact ⟨hWF.labelCacheSound label u ts hts, hWF, fun d hd => hd⟩
  | none =>
    cases hfind : s.store.find? (fun d => d.label == label) with
    | some doc =>
      have hdoc_mem : doc ∈ s.store := List.mem_of_find?_eq_some hfind
      have hdoc_lab : doc.label = label := by
        have := List.find?_some hfind
        simpa using this
      dsimp only
      refine ⟨⟨doc, hdoc_mem, hdoc_lab, rfl⟩, ?_, fun d hd => hd⟩
      refine ⟨hWF.labelFun, hWF.uuidFun, ?_, ?_, hWF.freshInj, hWF.freshNew⟩
      · intro l u ts h
        dsimp only at h
        by_cases hl : l = label
        · subst hl
          rw [if_pos rfl] at h
          have hu : doc.uuid = u := congrArg Prod.fst (Option.some_inj.mp h)
          exact ⟨doc, hdoc_mem, hdoc_lab, hu⟩
        · rw [if_neg hl] at h
          exact hWF.labelCacheSound l u ts h
      · intro u l ts h
        dsimp only at h
        by_cases hu : u = doc.uuid
        · subst hu
          rw [if_pos rfl] at h
          have hl : label = l := congrArg Prod.fst (Option.some_inj.mp h)
          exact ⟨doc, hdoc_mem, hdoc_lab.trans hl, rfl⟩
        · rw [if_neg hu] at h
          exact hWF.uuidCacheSound u l ts h
    | none =>
      have hnone : ∀ d ∈ s.store, d.label ≠ label := by
        intro d hd
        have := List.find?_eq_none.mp hfind d hd
        simpa using this
      have hnew_mem : (⟨label, s.fresh s.nFresh, now⟩ : RegDoc)
          ∈ s.store ++ [⟨label, s.fresh s.nFresh, now⟩] :=
        List.mem_append_right _ (List.mem_singleton.mpr rfl)
      dsimp only
      refine ⟨⟨⟨label, s.fresh s.nFresh, now⟩, hnew_mem, rfl, rfl⟩, ?_,
        fun d hd => List.mem_append_left _ hd⟩
      have hmem_split : ∀ d : RegDoc,
          d ∈ s.store ++ [⟨label, s.fresh s.nFresh, now⟩] →
          d ∈ s.store ∨ d = ⟨label, s.fresh s.nFresh, now⟩ := by
        intro d hd
        rcases List.mem_append.mp hd with h | h
        · exact Or.inl h
        · exact Or.inr (List.mem_singleton.mp h)
      refine ⟨?_, ?_, ?_, ?_, hWF.freshInj, ?_⟩
      · -- labels stay functional: the new label was absent from the store
        intro d₁ hd₁ d₂ hd₂ hlab
        rcases hmem_split d₁ hd₁ with h₁ | h₁ <;> rcases hmem_split d₂ hd₂ with h₂ | h₂
        · exact hWF.labelFun d₁ h₁ d₂ h₂ hlab
        · subst h₂
          exact absurd hlab (hnone d₁ h₁)
        · subst h₁
          exact absurd hlab.symm (hnone d₂ h₂)
        · rw [h₁, h₂]
      · -- uuids stay functional: the minted uuid is fresh
        intro d₁ hd₁ d₂ hd₂ huu
        rcases hmem_split d₁ hd₁ with h₁ | h₁ <;> rcases hmem_split d₂ hd₂ with h₂ | h₂
        · exact hWF.uuidFun d₁ h₁ d₂ h₂ huu
        · subst h₂
          exact absurd huu (hWF.freshNew s.nFresh le_rfl d₁ h₁)
        · subst h₁
          exact absurd huu.symm (hWF.freshNew s.nFresh le_rfl d₂ h₂)
        · rw [h₁, h₂]
      · intro l u ts h
        dsimp only at h
        by_cases hl : l = label
        · subst hl
          rw [if_pos rfl] at h
          have hu : s.fresh s.nFresh = u := congrArg Prod.fst (Option.some_inj.mp h)
          exact ⟨⟨l, s.fresh s.nFresh, now⟩, hnew_mem, rfl, hu⟩
        · rw [if_neg hl] at h
          exact MapsTo_of_store_mem (fun d hd => List.mem_append_left _ hd)
            (hWF.labelCacheSound l u ts h)
      · intro u l ts h
        dsimp only at h
        by_cases hu : u = s.fresh s.nFresh
        · subst hu
          rw [if_pos rfl] at h
          have hl : label = l := congrArg Prod.fst (Option.some_inj.mp h)
          exact ⟨⟨label, s.fresh s.nFresh, now⟩, hnew_mem, hl, rfl⟩
        · rw [if_neg hu] at h
          exact MapsTo_of_store_mem (fun d hd => List.mem_append_left _ hd)
            (hWF.uuidCacheSound u l ts h)
      · intro i hi d hd
        dsimp only at hi hd
        rcases hmem_split d hd with h | h
        · exact hWF.freshNew i (Nat.le_of_succ_le hi) d h
        · rw [h]
          intro heq
          have hij := hWF.freshInj _ _ heq
          omega

theorem getUuidForLabel_stable (s : RegState) (label u : String) (now : Nat)
    (hWF : RegWF s) (hmaps : MapsTo s label u) :
    (getUuidForLabel s label now).1 = u := by
  unfold getUuidForLabel
  cases hcf : regCacheFresh (s.labelCache label) now s.cacheTtl with
  | some v =>
    obtain ⟨ts, hts⟩ := regCacheFresh_some hcf
    exact MapsTo_unique_uuid hWF (hWF.labelCacheSound label v ts hts) hmaps
  | none =>
    cases hfind : s.store.find? (fun d => d.label == label) with
    | some doc =>
      have hdoc_mem : doc ∈ s.store := List.mem_of_find?_eq_some hfind
      have hdoc_lab : doc.label = label := by
        have := List.find?_some hfind
        simpa using this
      dsimp only
      exact MapsTo_unique_uuid hWF ⟨doc, hdoc_mem, hdoc_lab, rfl⟩ hmaps
    | none =>
      rcases hmaps with ⟨d, hd, hdl, hdu⟩
      have := List.find?_eq_none.mp hfind d hd
      simp [hdl] at this

theorem getLabelForUuid_stable (s : RegState) (label u : String) (now : Nat)
    (hWF : RegWF s) (hmaps : MapsTo s label u) :
    (getLabelForUuid s u now).1 = Except.ok label := by
  unfold getLabelForUuid
  cases hcf : regCacheFresh (s.uuidCache u) now s.cacheTtl with
  | some l =>
    obtain ⟨ts, hts⟩ := regCacheFresh_some hcf
    rw [MapsTo_unique_label hWF (hWF.uuidCacheSound u l ts hts) hmaps]
  | none =>
    cases hfind : s.store.find? (fun d => d.uuid == u) with
    | some doc =>
      have hdoc_mem : doc ∈ s.store := List.mem_of_find?_eq_some hfind
      have hdoc_uuid : doc.uuid = u := by
        have := List.find?_some hfind
        simpa using this
      dsimp only
      rw [MapsTo_unique_label hWF ⟨doc, hdoc_mem, rfl, hdoc_uuid⟩ hmaps]
    | none =>
      rcases hmaps with ⟨d, hd, hdl, hdu⟩
      have := List.find?_eq_none.mp hfind d hd
      simp [hdu] at this

end DbFacade

namespace DbFacade

/-- C2: with the backing store available and a well-formed registry state,
`get_uuid_for_label(l)` returns an identifier `U`; a second call returns the
same `U`; `get_label_for_uuid(U)` returns `l`; and the bijection invariant
(`RegWF`, covering both-direction functionality of the store and never
reassigning an entry) is maintained. -/
theorem registry_bijection_roundtrip (s : RegState) (hWF : RegWF s)
    (l : String) (t₁ t₂ t₃ : Nat) :
    (getUuidForLabel (getUuidForLabel s l t₁).2 l t₂).1 = (getUuidForLabel s l t₁).1 ∧
    (getLabelForUuid (getUuidForLabel (getUuidForLabel s l t₁).2 l t₂).2
        (getUuidForLabel s l t₁).1 t₃).1 = Except.ok l ∧
    RegWF (getUuidForLabel (getUuidForLabel s l t₁).2 l t₂).2 := by
  obtain ⟨hm₁, hWF₁, hsub₁⟩ := getUuidForLabel_sound s l t₁ hWF
  obtain ⟨hm₂, hWF₂, hsub₂⟩ :=
    getUuidForLabel_sound (getUuidForLabel s l t₁).2 l t₂ hWF₁
  refine ⟨getUuidForLabel_stable _ l _ t₂ hWF₁ hm₁, ?_, hWF₂⟩
  exact getLabelForUuid_stable _ l _ t₃ hWF₂ (MapsTo_of_store_mem hsub₂ hm₁)

/-- Witness for C2 at a concrete empty well-formed registry: looking up
`"username"` twice and resolving the returned identifier yields
`"username"` back. -/
theorem registry_bijection_roundtrip_witness :
    (getLabelForUuid
        (getUuidForLabel
          (getUuidForLabel
            (RegState.mk [] (fun _ => none) (fun _ => none) 3600
              (fun i => String.mk (List.replicate i 'u')) 0) "username" 0).2
          "username" 1).2
        (getUuidForLabel
          (RegState.mk [] (fun _ => none) (fun _ => none) 3600
            (fun i => String.mk (List.replicate i 'u')) 0) "username" 0).1
        2).1 = Except.ok "username" := by
  have hWF : RegWF (RegState.mk [] (fun _ => none) (fun _ => none) 3600
      (fun i => String.mk (List.replicate i 'u')) 0) := by
    refine ⟨?_, ?_, ?_, ?_, ?_, ?_⟩
    · intro d₁ h₁; exact absurd h₁ (List.not_mem_nil d₁)
    · intro d₁ h₁; exact absurd h₁ (List.not_mem_nil d₁)
    · intro l u ts h; cases h
    · intro u l ts h; cases h
    · intro i j h
      have h₂ := congrArg String.data h
      have h₃ := congrArg List.length h₂
      simpa using h₃
    · intro i _ d hd; exact absurd hd (List.not_mem_nil d)
  exact (registry_bijection_roundtrip _ hWF "username" 0 1 2).2.1

/-- C8: looking up an identifier that was never registered raises a
recoverable Not-Found error (an exception value, not a process exit), mints
nothing, and leaves the whole registry state — store and both caches —
unchanged. -/
theorem unknown_uuid_lookup_keyerror (s : RegState) (hWF : RegWF s)
    (u : String) (now : Nat) (hunk : ∀ d ∈ s.store, d.uuid ≠ u) :
    getLabelForUuid s u now
      = (Except.error ("UUID " ++ u ++ " not found in registry"), s) := by
  unfold getLabelForUuid
  cases hcf : regCacheFresh (s.uuidCache u) now s.cacheTtl with
  | some l =>
    obtain ⟨ts, hts⟩ := regCacheFresh_some hcf
    rcases hWF.uuidCacheSound u l ts hts with ⟨d, hd, -, hdu⟩
    exact absurd hdu (hunk d hd)
  | none =>
    have hfind : s.store.find? (fun d => d.uuid == u) = none :=
      List.find?_eq_none.mpr (fun d hd => by simpa using hunk d hd)
    rw [hfind]

/-- Witness for C8: on a concrete well-formed registry with an empty store,
an unknown identifier yields the Not-Found error and the identical state. -/
theorem unknown_uuid_lookup_keyerror_witness :
    getLabelForUuid
        (RegState.mk [] (fun _ => none) (fun _ => none) 3600
          (fun i => String.mk (List.replicate i 'u')) 0) "deadbeef" 5
      = (Except.error ("UUID " ++ "deadbeef" ++ " not found in registry"),
         RegState.mk [] (fun _ => none) (fun _ => none) 3600
           (fun i => String.mk (List.replicate i 'u')) 0) := by
  have hWF : RegWF (RegState.mk [] (fun _ => none) (fun _ => none) 3600
      (fun i => String.mk (List.replicate i 'u')) 0) := by
    refine ⟨?_, ?_, ?_, ?_, ?_, ?_⟩
    · intro d₁ h₁; exact absurd h₁ (List.not_mem_nil d₁)
    · intro d₁ h₁; exact absurd h₁ (List.not_mem_nil d₁)
    · intro l u ts h; cases h
    · intro u l ts h; cases h
    · intro i j h
      have h₂ := congrArg String.data h
      have h₃ := congrArg List.length h₂
      simpa using h₃
    · intro i _ d hd; exact absurd hd (List.not_mem_nil d)
  exact unknown_uuid_lookup_keyerror _ hWF "deadbeef" 5
    (fun d hd => absurd hd (List.not_mem_nil d))

end DbFacade

namespace DbFacade

theorem take_append_len {α : Type} (l₁ l₂ : List α) :
    (l₁ ++ l₂).take l₁.length = l₁ := by
  induction l₁ with
  | nil => simp
  | cons a l ih => simp [ih]

theorem drop_append_len {α : Type} (l₁ l₂ : List α) :
    (l₁ ++ l₂).drop l₁.length = l₂ := by
  induction l₁ with
  | nil => simp
  | cons a l ih => simp [ih]

/-- C3: for a `FieldEncryptor` with a fixed master key using AES-GCM,
`decrypt_field(encrypt_field(v, F), F)` returns `v` for every value `v`
that survives a JSON round-trip (the hypothesis `hjson`, exactly the
claim's `json.loads(json.dumps(v)) == v`), given the library laws at the
bytes this call produces: the GCM tag is 16 bytes, decrypting the produced
ciphertext with the same derived key, nonce and tag yields the plaintext,
and base64 decoding inverts encoding. -/
theorem encrypt_decrypt_roundtrip (P : EncPrims) (v : Val) (f : String)
    (salt iv : List Nat) (t : String)
    (hjson : P.jsonLoads (P.jsonDumps v) = some v)
    (htag : ((P.aesGcmEnc (P.deriveKey f salt) iv (P.jsonDumps v)).2).length = 16)
    (hdec : P.aesGcmDec (P.deriveKey f salt) iv
        (P.aesGcmEnc (P.deriveKey f salt) iv (P.jsonDumps v)).2
        (P.aesGcmEnc (P.deriveKey f salt) iv (P.jsonDumps v)).1
      = some (P.jsonDumps v))
    (hb64v : P.b64decode (P.b64encode
        ((P.aesGcmEnc (P.deriveKey f salt) iv (P.jsonDumps v)).1 ++
          (P.aesGcmEnc (P.deriveKey f salt) iv (P.jsonDumps v)).2))
      = (P.aesGcmEnc (P.deriveKey f salt) iv (P.jsonDumps v)).1 ++
        (P.aesGcmEnc (P.deriveKey f salt) iv (P.jsonDumps v)).2)
    (hb64iv : P.b64decode (P.b64encode iv) = iv)
    (hb64salt : P.b64decode (P.b64encode salt) = salt) :
    encryptField P v f EncryptionAlgorithm.aesGcm salt iv t
      = Except.ok (encryptFieldAES P v f salt iv t) ∧
    decryptField P (encryptFieldAES P v f salt iv t) f = Except.ok v := by
  refine ⟨rfl, ?_⟩
  simp only [encryptFieldAES, metadataToDict, decryptField, dictGet, dictGetStr,
    List.find?, Option.map,
    show ("value" == "value") = true from by decide,
    show ("value" == "metadata") = false from by decide,
    show ("metadata" == "metadata") = true from by decide,
    show ("algorithm" == "algorithm") = true from by decide,
    show ("algorithm" == "iv") = false from by decide,
    show ("iv" == "iv") = true from by decide,
    show ("algorithm" == "salt") = false from by decide,
    show ("iv" == "salt") = false from by decide,
    show ("salt" == "salt") = true from by decide,
    show ("algorithm" == "created_at") = false from by decide,
    show ("iv" == "created_at") = false from by decide,
    show ("salt" == "created_at") = false from by decide,
    show ("created_at" == "created_at") = true from by decide,
    EncryptionAlgorithm.value,
    show parseAlgorithm "AES-GCM" = some EncryptionAlgorithm.aesGcm from rfl]
  rw [hb64v, hb64iv, hb64salt]
  have hlen : ((P.aesGcmEnc (P.deriveKey f salt) iv (P.jsonDumps v)).1 ++
      (P.aesGcmEnc (P.deriveKey f salt) iv (P.jsonDumps v)).2).length - 16
      = ((P.aesGcmEnc (P.deriveKey f salt) iv (P.jsonDumps v)).1).length := by
    rw [List.length_append, htag]
    omega
  rw [hlen, take_append_len, drop_append_len, hdec]
  dsimp only
  rw [hjson]

/-- Witness for C3: with the degenerate primitives `idPrims` the round-trip
hypotheses hold by `rfl` at each of the four values the claim lists, and
the theorem yields the round-trip at each. -/
theorem encrypt_decrypt_roundtrip_witness :
    decryptField (idPrims (Val.vStr "secret message"))
        (encryptFieldAES (idPrims (Val.vStr "secret message"))
          (Val.vStr "secret message") "F" [] [] "t") "F"
      = Except.ok (Val.vStr "secret message") ∧
    decryptField (idPrims (Val.vInt 123))
        (encryptFieldAES (idPrims (Val.vInt 123)) (Val.vInt 123) "F" [] [] "t") "F"
      = Except.ok (Val.vInt 123) ∧
    decryptField (idPrims (Val.vBool true))
        (encryptFieldAES (idPrims (Val.vBool true)) (Val.vBool true) "F" [] [] "t") "F"
      = Except.ok (Val.vBool true) ∧
    decryptField (idPrims (Val.vDict [("a", Val.vInt 1), ("b", Val.vDict [("c", Val.vInt 2)])]))
        (encryptFieldAES (idPrims (Val.vDict [("a", Val.vInt 1), ("b", Val.vDict [("c", Val.vInt 2)])]))
          (Val.vDict [("a", Val.vInt 1), ("b", Val.vDict [("c", Val.vInt 2)])]) "F" [] [] "t") "F"
      = Except.ok (Val.vDict [("a", Val.vInt 1), ("b", Val.vDict [("c", Val.vInt 2)])]) :=
  ⟨(encrypt_decrypt_roundtrip (idPrims (Val.vStr "secret message"))
      (Val.vStr "secret message") "F" [] [] "t" rfl rfl rfl (by decide) rfl rfl).2,
   (encrypt_decrypt_roundtrip (idPrims (Val.vInt 123))
      (Val.vInt 123) "F" [] [] "t" rfl rfl rfl (by decide) rfl rfl).2,
   (encrypt_decrypt_roundtrip (idPrims (Val.vBool true))
      (Val.vBool true) "F" [] [] "t" rfl rfl rfl (by decide) rfl rfl).2,
   (encrypt_decrypt_roundtrip (idPrims (Val.vDict [("a", Val.vInt 1), ("b", Val.vDict [("c", Val.vInt 2)])]))
      (Val.vDict [("a", Val.vInt 1), ("b", Val.vDict [("c", Val.vInt 2)])]) "F" [] [] "t"
      rfl rfl rfl (by decide) rfl rfl).2⟩

end DbFacade

namespace DbFacade

theorem except_map_ok {ε α β : Type} {fn : α → β} {e : Except ε α} {b : β}
    (h : Except.map fn e = Except.ok b) : ∃ a, e = Except.ok a ∧ fn a = b := by
  cases e with
  | ok a =>
    refine ⟨a, rfl, ?_⟩
    simpa [Except.map] using h
  | error err => simp [Except.map] at h

theorem mapToUuids_ok_of_resolvable (P : EncPrims) (sup : EncSupply)
    (encryptionEnabled devMode : Bool) (lookup : String → Option String)
    (obfFields : List (String × ObfuscationLevel)) (dump : List (String × Val))
    (hres : ∀ k v, (k, v) ∈ dump → pyStartsWith k "_" = false →
      (lookup k).isSome) :
    mapToUuids P sup encryptionEnabled devMode lookup obfFields dump
      = Except.ok (dump.map (entryImage P sup encryptionEnabled lookup obfFields)) := by
  revert hres
  induction dump with
  | nil => intro _; rfl
  | cons kv rest ih =>
    intro hres
    obtain ⟨k, v⟩ := kv
    have hrest := ih (fun k2 v2 hm hp => hres k2 v2 (List.mem_cons_of_mem _ hm) hp)
    cases hkp : pyStartsWith k "_" with
    | true =>
      simp only [mapToUuids, hkp, if_true, hrest, Except.map, List.map_cons]
      simp [entryImage, hkp]
    | false =>
      cases hlk : lookup k with
      | none =>
        have := hres k v (List.mem_cons_self (k, v) rest) hkp
        rw [hlk] at this
        simp at this
      | some u =>
        simp only [mapToUuids, hkp, Bool.false_eq_true, if_false, hlk, hrest,
          Except.map, List.map_cons]
        simp [entryImage, hkp, hlk]

/-- C1: with encryption globally enabled and every non-private dumped field
name resolvable through the registry, `get_obfuscated_data()` succeeds; in
its result every non-private key is an identifier produced by the registry
(no semantic name remains a key); every field whose descriptor is
`encrypted` is stored under its identifier as the encryption envelope of
its value; and the envelope is a mapping with exactly the `value` and
`metadata` keys, never the plaintext. -/
theorem production_opacity (P : EncPrims) (sup : EncSupply) (devMode : Bool)
    (lookup : String → Option String)
    (obfFields : List (String × ObfuscationLevel)) (dump : List (String × Val))
    (hres : ∀ k v, (k, v) ∈ dump → pyStartsWith k "_" = false →
      (lookup k).isSome) :
    ∃ out, getObfuscatedData P sup true devMode lookup obfFields dump
        = Except.ok out ∧
      (∀ k v, (k, v) ∈ out → pyStartsWith k "_" = false →
        ∃ l, lookup l = some k) ∧
      (∀ k v, (k, v) ∈ dump → pyStartsWith k "_" = false →
        levelIsEncrypted obfFields k = true →
        ∃ u, lookup k = some u ∧
          (u, encryptFieldAES P (serializeDatetime v) u (sup.salt u)
                (sup.iv u) (sup.createdAt u)) ∈ out) ∧
      (∀ (w : Val) (u : String) (sa nonce : List Nat) (ts : String),
        ∃ cv md, encryptFieldAES P w u sa nonce ts
          = Val.vDict [("value", cv), ("metadata", md)]) := by
  refine ⟨dump.map (entryImage P sup true lookup obfFields),
    mapToUuids_ok_of_resolvable P sup true devMode lookup obfFields dump hres,
    ?_, ?_, ?_⟩
  · intro k2 v2 hmem hp
    obtain ⟨⟨k, v⟩, hkv, himg⟩ := List.mem_map.mp hmem
    cases hkp : pyStartsWith k "_" with
    | true =>
      rw [entryImage, hkp] at himg
      simp only [if_true] at himg
      obtain ⟨hk, -⟩ := Prod.mk.injEq .. ▸ himg
      rw [← hk] at hp
      rw [hkp] at hp
      cases hp
    | false =>
      cases hlk : lookup k with
      | none =>
        have := hres k v hkv hkp
        rw [hlk] at this
        simp at this
      | some u =>
        rw [entryImage, hkp] at himg
        simp only [Bool.false_eq_true, if_false, hlk] at himg
        obtain ⟨hk, -⟩ := Prod.mk.injEq .. ▸ himg
        exact ⟨k, by rw [hlk, hk]⟩
  · intro k v hkv hp henc
    cases hlk : lookup k with
    | none =>
      have := hres k v hkv hp
      rw [hlk] at this
      simp at this
    | some u =>
      refine ⟨u, rfl, ?_⟩
      have himg : entryImage P sup true lookup obfFields (k, v)
          = (u, encryptFieldAES P (serializeDatetime v) u (sup.salt u)
              (sup.iv u) (sup.createdAt u)) := by
        rw [entryImage]
        simp [hp, hlk, henc]
      exact himg ▸ List.mem_map_of_mem _ hkv
  · intro w u sa nonce ts
    exact ⟨Val.vStr (P.b64encode
        ((P.aesGcmEnc (P.deriveKey u sa) nonce (P.jsonDumps w)).1 ++
         (P.aesGcmEnc (P.deriveKey u sa) nonce (P.jsonDumps w)).2)),
      metadataToDict EncryptionAlgorithm.aesGcm (P.b64encode nonce)
        (P.b64encode sa) ts, rfl⟩

end DbFacade

namespace DbFacade

/-- Witness for C1: a concrete model dump with a `uuid_only` field and an
`encrypted` field, both resolvable, under encryption enabled. -/
theorem production_opacity_witness :
    ∃ out, getObfuscatedData (idPrims Val.vNull)
        (EncSupply.mk (fun _ => []) (fun _ => []) (fun _ => "ts")) true false
        (fun k => if k = "username" then some "u-user"
                  else if k = "password" then some "u-pass" else none)
        [("password", ObfuscationLevel.encrypted),
         ("username", ObfuscationLevel.uuidOnly)]
        [("username", Val.vStr "alice"), ("password", Val.vStr "hunter2")]
        = Except.ok out ∧
      (∀ k v, (k, v) ∈ out → pyStartsWith k "_" = false →
        ∃ l, (fun k => if k = "username" then some "u-user"
                  else if k = "password" then some "u-pass" else none) l
              = some k) ∧
      (∀ k v, (k, v) ∈ [("username", Val.vStr "alice"),
                        ("password", Val.vStr "hunter2")] →
        pyStartsWith k "_" = false →
        levelIsEncrypted [("password", ObfuscationLevel.encrypted),
          ("username", ObfuscationLevel.uuidOnly)] k = true →
        ∃ u, (fun k => if k = "username" then some "u-user"
                  else if k = "password" then some "u-pass" else none) k
              = some u ∧
          (u, encryptFieldAES (idPrims Val.vNull) (serializeDatetime v) u [] [] "ts")
            ∈ out) ∧
      (∀ (w : Val) (u : String) (sa nonce : List Nat) (ts : String),
        ∃ cv md, encryptFieldAES (idPrims Val.vNull) w u sa nonce ts
          = Val.vDict [("value", cv), ("metadata", md)]) :=
  production_opacity (idPrims Val.vNull)
    (EncSupply.mk (fun _ => []) (fun _ => []) (fun _ => "ts")) false
    (fun k => if k = "username" then some "u-user"
              else if k = "password" then some "u-pass" else none)
    [("password", ObfuscationLevel.encrypted),
     ("username", ObfuscationLevel.uuidOnly)]
    [("username", Val.vStr "alice"), ("password", Val.vStr "hunter2")]
    (by
      intro k v hkv hp
      rcases List.mem_cons.mp hkv with h | h
      · have hk : k = "username" := congrArg Prod.fst h
        rw [hk]
        decide
      · rcases List.mem_cons.mp h with h2 | h2
        · have hk : k = "password" := congrArg Prod.fst h2
          rw [hk]
          decide
        · exact absurd h2 (List.not_mem_nil _))

/-- C4: in `_map_to_uuids` the declared obfuscation level is consulted only
to decide encryption, never key substitution: whenever the mapping succeeds,
every non-private input field whose name resolves to identifier `u` —
including one declared level `none` — appears in the output under the key
`u`, and its value is the encryption envelope exactly when encryption is
globally enabled and the descriptor declares `encrypted`, the plain
(datetime-serialized) value otherwise. -/
theorem level_gates_encryption_not_key_mapping (P : EncPrims) (sup : EncSupply)
    (encryptionEnabled devMode : Bool) (lookup : String → Option String)
    (obfFields : List (String × ObfuscationLevel)) (dump : List (String × Val))
    (k : String) (v : Val) (u : String) (out : List (String × Val))
    (hok : mapToUuids P sup encryptionEnabled devMode lookup obfFields dump
      = Except.ok out)
    (hmem : (k, v) ∈ dump) (hp : pyStartsWith k "_" = false)
    (hu : lookup k = some u) :
    (u, if encryptionEnabled && levelIsEncrypted obfFields k then
          encryptFieldAES P (serializeDatetime v) u (sup.salt u) (sup.iv u)
            (sup.createdAt u)
        else serializeDatetime v) ∈ out := by
  induction dump generalizing out with
  | nil => cases hmem
  | cons kv rest ih =>
    obtain ⟨k₀, v₀⟩ := kv
    rcases List.mem_cons.mp hmem with heq | hmem2
    · have hk : k = k₀ := congrArg Prod.fst heq
      have hv : v = v₀ := congrArg Prod.snd heq
      subst hk
      subst hv
      simp only [mapToUuids, hp, Bool.false_eq_true, if_false, hu] at hok
      obtain ⟨out2, hrest, himg⟩ := except_map_ok hok
      rw [← himg]
      exact List.mem_cons_self _ _
    · cases hkp : pyStartsWith k₀ "_" with
      | true =>
        simp only [mapToUuids, hkp, if_true] at hok
        obtain ⟨out2, hrest, himg⟩ := except_map_ok hok
        rw [← himg]
        exact List.mem_cons_of_mem _ (ih out2 hrest hmem2)
      | false =>
        cases hlk : lookup k₀ with
        | some u₀ =>
          simp only [mapToUuids, hkp, Bool.false_eq_true, if_false, hlk] at hok
          obtain ⟨out2, hrest, himg⟩ := except_map_ok hok
          rw [← himg]
          exact List.mem_cons_of_mem _ (ih out2 hrest hmem2)
        | none =>
          cases hdm : devMode with
          | true =>
            rw [hdm] at ih
            simp only [mapToUuids, hkp, Bool.false_eq_true, if_false, hlk,
              hdm, if_true] at hok
            obtain ⟨out2, hrest, himg⟩ := except_map_ok hok
            rw [← himg]
            exact List.mem_cons_of_mem _ (ih out2 hrest hmem2)
          | false =>
            simp only [mapToUuids, hkp, Bool.false_eq_true, if_false, hlk,
              hdm] at hok
            exact Except.noConfusion hok

/-- Witness for C4: a field declared level `none` still has its key
replaced by its identifier, and its value is not encrypted. -/
theorem level_gates_encryption_not_key_mapping_witness :
    ("u-plain",
      if true && levelIsEncrypted [("plain", ObfuscationLevel.levelNone)] "plain" then
        encryptFieldAES (idPrims Val.vNull) (serializeDatetime (Val.vStr "x"))
          "u-plain" [] [] "ts"
      else serializeDatetime (Val.vStr "x"))
      ∈ [("u-plain", Val.vStr "x")] :=
  level_gates_encryption_not_key_mapping (idPrims Val.vNull)
    (EncSupply.mk (fun _ => []) (fun _ => []) (fun _ => "ts")) true true
    (fun k => if k = "plain" then some "u-plain" else none)
    [("plain", ObfuscationLevel.levelNone)]
    [("plain", Val.vStr "x")] "plain" (Val.vStr "x") "u-plain"
    [("u-plain", Val.vStr "x")] rfl
    (List.mem_cons_self _ _) (by decide) rfl

end DbFacade
